import Mathlib

/-!
Shallow embedding of the geodetic core of the coord_convert_gui repository
(the bundled pygeodesy modules under src/venv/Lib/site-packages/pygeodesy),
together with theorems settling the frozen claims about it.

Conventions of the embedding:
* Python floats are idealized as exact numbers: comparisons and case
  selections that the code performs on floats are embedded over `ℚ`
  (exact, decidable), while trigonometric / square-root computations are
  embedded over `ℝ`.
* Python exceptions become `Except`/`Option` results.
* Decimal literals of the source are carried over as the exact rationals
  they denote in the source text.

Some small helper modules of pygeodesy (fmath.py, utily.py, utmupsBase.py,
dms.py) are not part of the repository snapshot under src/; definitions
taken from those modules are modelled from the spec and are marked
`Modelled from the spec:` in their doc comment.
-/

open Real Classical

/-- Modelled from the spec: fmath.py (not in src) defines `EPS` as
`sys.float_info.epsilon`, the IEEE-754 double machine epsilon 2^-52. -/
def EPS : ℚ := 1 / 2 ^ 52

/-- Modelled from the spec: fmath.py (not in src) `EPS1 = 1 - EPS`. -/
def EPS1 : ℚ := 1 - EPS

/-- Modelled from the spec: fmath.py (not in src) `EPS_2 = EPS / 2`; with
`hmax = a / EPS_2 = 2 a / EPS ≈ 1.15e23 m ≈ 12 million light years` this
matches the "far away (> 12 million light years)" comment in
`EcefKarney.reverse` (ecef.py). -/
def EPS_2 : ℚ := EPS / 2

/-- An ellipsoid as constructed by datum.py `Ellipsoid(a, None, f_)`:
the major half-axis `a` and the flattening `f = 1 / f_` determine
everything else. -/
structure Ellipsoid where
  a : ℚ
  f : ℚ
deriving DecidableEq

/-- datum.py: minor half-axis `b = a * (f_ - 1) / f_ = a * (1 - f)`. -/
def Ellipsoid.b (E : Ellipsoid) : ℚ := E.a * (1 - E.f)

/-- datum.py `e2`: first eccentricity squared, `f * (2 - f)`. -/
def Ellipsoid.e2 (E : Ellipsoid) : ℚ := E.f * (2 - E.f)

/-- datum.py `e12`: `1 - e2` (equal to `(1 - f) ** 2`); named `e2m` in
`EcefKarney`. -/
def Ellipsoid.e12 (E : Ellipsoid) : ℚ := 1 - E.e2

/-- datum.py `e22`: second eccentricity squared, `e2 / (1 - e2)`. -/
def Ellipsoid.e22 (E : Ellipsoid) : ℚ := E.e2 / (1 - E.e2)

/-- datum.py `e4`: `e2 ** 2`; equals `EcefKarney.e4a = abs(e2) ** 2`. -/
def Ellipsoid.e4 (E : Ellipsoid) : ℚ := E.e2 ^ 2

/-- datum.py `n`: third flattening `f / (2 - f)`. -/
def Ellipsoid.n (E : Ellipsoid) : ℚ := E.f / (2 - E.f)

/-- datum.py registry: `WGS84 = Ellipsoid(6378137.0, None, 298.257223563)`,
so `f = 1 / 298.257223563` exactly. -/
def WGS84 : Ellipsoid := ⟨6378137, 1000000000 / 298257223563⟩

/-- ecef.py `EcefKarney.__init__`: `self._hmax = self.a / EPS_2`. -/
def EcefKarney.hmax (E : Ellipsoid) : ℚ := E.a / EPS_2

/-- The case-code (branch) selection of `EcefKarney.reverse`
(ecef.py lines 338-427), embedded in exact arithmetic.  The code's branch
guards are:
* `h > self._hmax` with `h = hypot(hypot(y, x), z)`: for nonnegative
  quantities this is `x² + y² + z² > hmax²`, the form used here;
* `elif self.e4a:` — nonzero test on `e4a = abs(e2) ** 2`;
* `if e or r > 0:` with `e = e4a * q ≥ 0` — nonzero test on `e`;
the remaining arithmetic of each branch (the cubic solve etc.) does not
influence the returned case code `C`. -/
def EcefKarney.reverseCase (E : Ellipsoid) (x y z : ℚ) : ℕ :=
  if x ^ 2 + y ^ 2 + z ^ 2 > (EcefKarney.hmax E) ^ 2 then
    -- far away: treat the earth as a point
    1
  else if E.e4 ≠ 0 then
    -- p = (d / a)², q = e2m * (z / a)², swapped for prolate (f < 0)
    let p0 := (x ^ 2 + y ^ 2) / E.a ^ 2
    let q0 := E.e12 * (z / E.a) ^ 2
    let p := if E.f < 0 then q0 else p0
    let q := if E.f < 0 then p0 else q0
    let r := p + q - E.e4
    let e := E.e4 * q
    if e ≠ 0 ∨ r > 0 then
      -- general ellipsoid, solved via the cubic equation
      2
    else
      -- e = e4a * q = 0 and r ≤ 0: equatorial plane (oblate) / polar axis
      -- (prolate) degenerate branch
      3
  else
    -- e4a = 0: spherical degenerate branch
    4

/-- From `EcefKarney.reverse` (ecef.py lines 353-358): `p = (d / a)²`
with `d = hypot(y, x)`, swapped with `q` for prolate spheroids
(`f < 0`). -/
def EcefKarney.pK (E : Ellipsoid) (x y z : ℚ) : ℚ :=
  if E.f < 0 then E.e12 * (z / E.a) ^ 2 else (x ^ 2 + y ^ 2) / E.a ^ 2

/-- From `EcefKarney.reverse` (ecef.py lines 353-358): `q = e2m·(z/a)²`,
swapped with `p` for prolate spheroids (`f < 0`). -/
def EcefKarney.qK (E : Ellipsoid) (x y z : ℚ) : ℚ :=
  if E.f < 0 then (x ^ 2 + y ^ 2) / E.a ^ 2 else E.e12 * (z / E.a) ^ 2

/-- The case-code assignment asserted by claim C1 (following the claim's
words, for comparison with `EcefKarney.reverseCase` taken from the code):
C=0 far away, C=1 general-ellipsoid cubic branch, C=2 equatorial-plane
degenerate branch (`q·e⁴ = 0` and `r ≤ 0`), C=4 spherical branch. -/
def reverseCaseClaimC1 (E : Ellipsoid) (x y z : ℚ) : Prop :=
  (x ^ 2 + y ^ 2 + z ^ 2 > (EcefKarney.hmax E) ^ 2 →
      EcefKarney.reverseCase E x y z = 0) ∧
  (¬ x ^ 2 + y ^ 2 + z ^ 2 > (EcefKarney.hmax E) ^ 2 → E.e4 ≠ 0 →
      (E.e4 * (E.e12 * (z / E.a) ^ 2) ≠ 0 ∨
       (x ^ 2 + y ^ 2) / E.a ^ 2 + E.e12 * (z / E.a) ^ 2 - E.e4 > 0) →
      EcefKarney.reverseCase E x y z = 1) ∧
  (¬ x ^ 2 + y ^ 2 + z ^ 2 > (EcefKarney.hmax E) ^ 2 → E.e4 ≠ 0 →
      E.e4 * (E.e12 * (z / E.a) ^ 2) = 0 ∧
      ¬ (x ^ 2 + y ^ 2) / E.a ^ 2 + E.e12 * (z / E.a) ^ 2 - E.e4 > 0 →
      EcefKarney.reverseCase E x y z = 2) ∧
  (¬ x ^ 2 + y ^ 2 + z ^ 2 > (EcefKarney.hmax E) ^ 2 → E.e4 = 0 →
      EcefKarney.reverseCase E x y z = 4)

/-- The WGS84 surface point `(a, 0, 0)` is nowhere near the far-away
threshold `hmax = a / EPS_2`. -/
lemma wgs84_a00_not_far :
    ¬ (6378137 : ℚ) ^ 2 + 0 ^ 2 + 0 ^ 2 > (EcefKarney.hmax WGS84) ^ 2 := by
  norm_num [EcefKarney.hmax, EPS_2, EPS, WGS84]

/-- WGS84 is not a sphere: `e⁴ ≠ 0`. -/
lemma wgs84_e4_ne : WGS84.e4 ≠ 0 := by
  norm_num [Ellipsoid.e4, Ellipsoid.e2, WGS84]

/-- At `(a, 0, 0)` on WGS84 the cubic-branch guard `r > 0` holds. -/
lemma wgs84_a00_r_pos :
    ((6378137 : ℚ) ^ 2 + 0 ^ 2) / WGS84.a ^ 2 +
      WGS84.e12 * ((0 : ℚ) / WGS84.a) ^ 2 - WGS84.e4 > 0 := by
  norm_num [Ellipsoid.e4, Ellipsoid.e2, Ellipsoid.e12, WGS84]

/-- ecef.py line 394: the general-ellipsoid cubic branch returns `C = 2`. -/
lemma wgs84_a00_case :
    EcefKarney.reverseCase WGS84 6378137 0 0 = 2 := by
  have h3 : WGS84.e4 * (WGS84.e12 * ((0 : ℚ) / WGS84.a) ^ 2) ≠ 0 ∨
      ((6378137 : ℚ) ^ 2 + 0 ^ 2) / WGS84.a ^ 2 +
        WGS84.e12 * ((0 : ℚ) / WGS84.a) ^ 2 - WGS84.e4 > 0 :=
    Or.inr wgs84_a00_r_pos
  have hf : ¬ WGS84.f < 0 := by norm_num [WGS84]
  simp only [EcefKarney.reverseCase, if_neg wgs84_a00_not_far,
    if_neg hf, wgs84_e4_ne, ne_eq, not_false_eq_true, if_true, if_pos h3]

/-- C1 counterexample: on WGS84 the input `(a, 0, 0)` is not in the
far-away branch, `e⁴ ≠ 0` and `r = p + q - e⁴ > 0` hold, so the claim
asserts the general-ellipsoid cubic branch returns case code 1; the code
(ecef.py line 394, `C = 2`) returns 2 there, refuting claim C1 as stated
(the code numbers the branches far-away = 1, general = 2, degenerate = 3,
spherical = 4). -/
theorem reverseCase_claimC1_false : ¬ reverseCaseClaimC1 WGS84 6378137 0 0 := by
  intro h
  have h2 := h.2.1 wgs84_a00_not_far wgs84_e4_ne (Or.inr wgs84_a00_r_pos)
  rw [wgs84_a00_case] at h2
  exact absurd h2 (by norm_num)

/-- C1 (amended): for every geocentric input `(x, y, z)` and every
ellipsoid (oblate or prolate), `EcefKarney.reverse` returns case code
C=1 for the far-away branch (squared distance to the earth center
exceeding `hmax²`), C=2 for the general-ellipsoid branch solved via the
cubic equation (`e = e⁴·q ≠ 0` or `r > 0`), C=3 for the degenerate
branch (`e⁴·q = 0` and `r ≤ 0`: equatorial plane for oblate, rotation
axis for prolate, via the swapped `p`/`q` of `EcefKarney.pK`/`qK`), and
C=4 for the spherical degenerate branch (`e⁴ = 0`). -/
theorem reverseCase_codes (E : Ellipsoid) (x y z : ℚ) :
    (EcefKarney.reverseCase E x y z = 1 ↔
      x ^ 2 + y ^ 2 + z ^ 2 > (EcefKarney.hmax E) ^ 2) ∧
    (EcefKarney.reverseCase E x y z = 2 ↔
      ¬ x ^ 2 + y ^ 2 + z ^ 2 > (EcefKarney.hmax E) ^ 2 ∧ E.e4 ≠ 0 ∧
      (E.e4 * EcefKarney.qK E x y z ≠ 0 ∨
       EcefKarney.pK E x y z + EcefKarney.qK E x y z - E.e4 > 0)) ∧
    (EcefKarney.reverseCase E x y z = 3 ↔
      ¬ x ^ 2 + y ^ 2 + z ^ 2 > (EcefKarney.hmax E) ^ 2 ∧ E.e4 ≠ 0 ∧
      E.e4 * EcefKarney.qK E x y z = 0 ∧
      ¬ EcefKarney.pK E x y z + EcefKarney.qK E x y z - E.e4 > 0) ∧
    (EcefKarney.reverseCase E x y z = 4 ↔
      ¬ x ^ 2 + y ^ 2 + z ^ 2 > (EcefKarney.hmax E) ^ 2 ∧ E.e4 = 0) := by
  simp only [EcefKarney.reverseCase, EcefKarney.pK, EcefKarney.qK]
  by_cases h1 : x ^ 2 + y ^ 2 + z ^ 2 > (EcefKarney.hmax E) ^ 2
  · rw [if_pos h1]
    exact ⟨iff_of_true rfl h1, iff_of_false (by norm_num) fun hc => hc.1 h1,
      iff_of_false (by norm_num) fun hc => hc.1 h1,
      iff_of_false (by norm_num) fun hc => hc.1 h1⟩
  · rw [if_neg h1]
    by_cases h2 : E.e4 = 0
    · rw [if_neg (by simpa using h2)]
      exact ⟨iff_of_false (by norm_num) fun hc => h1 hc,
        iff_of_false (by norm_num) fun hc => hc.2.1 h2,
        iff_of_false (by norm_num) fun hc => hc.2.1 h2,
        iff_of_true rfl ⟨h1, h2⟩⟩
    · rw [if_pos (by simpa using h2)]
      by_cases h3 : E.e4 * (if E.f < 0 then (x ^ 2 + y ^ 2) / E.a ^ 2
            else E.e12 * (z / E.a) ^ 2) ≠ 0 ∨
          (if E.f < 0 then E.e12 * (z / E.a) ^ 2
            else (x ^ 2 + y ^ 2) / E.a ^ 2) +
            (if E.f < 0 then (x ^ 2 + y ^ 2) / E.a ^ 2
              else E.e12 * (z / E.a) ^ 2) - E.e4 > 0
      · rw [if_pos h3]
        refine ⟨iff_of_false (by norm_num) fun hc => h1 hc,
          iff_of_true rfl ⟨h1, h2, h3⟩,
          iff_of_false (by norm_num) ?_,
          iff_of_false (by norm_num) fun hc => h2 hc.2⟩
        rintro ⟨-, -, h4, h5⟩
        rcases h3 with h3 | h3
        · exact h3 h4
        · exact h5 h3
      · rw [if_neg h3]
        push_neg at h3
        exact ⟨iff_of_false (by norm_num) fun hc => h1 hc,
          iff_of_false (by norm_num) fun hc => by
            rcases hc.2.2 with hd | hd
            · exact hd h3.1
            · exact absurd hd (not_lt.mpr h3.2),
          iff_of_true rfl ⟨h1, h2, h3.1, not_lt.mpr h3.2⟩,
          iff_of_false (by norm_num) fun hc => h2 hc.2⟩

/-- Witness for `reverseCase_codes`: the oblate WGS84 surface point
`(a, 0, 0)` takes the general cubic branch (C=2), and on a prolate
ellipsoid (`f = -1/300`) the rotation-axis point `(0, 0, 1)` takes the
degenerate branch (C=3) through the swapped `p`/`q`. -/
theorem reverseCase_codes_witness :
    EcefKarney.reverseCase WGS84 6378137 0 0 = 2 ∧
    EcefKarney.reverseCase ⟨6378137, -1 / 300⟩ 0 0 1 = 3 := by
  constructor
  · refine (reverseCase_codes WGS84 6378137 0 0).2.1.mpr
      ⟨wgs84_a00_not_far, wgs84_e4_ne, Or.inr ?_⟩
    have hf : ¬ WGS84.f < 0 := by norm_num [WGS84]
    rw [EcefKarney.pK, EcefKarney.qK, if_neg hf, if_neg hf]
    exact wgs84_a00_r_pos
  · refine (reverseCase_codes ⟨6378137, -1 / 300⟩ 0 0 1).2.2.1.mpr
      ⟨?_, ?_, ?_, ?_⟩
    · norm_num [EcefKarney.hmax, EPS_2, EPS]
    · norm_num [Ellipsoid.e4, Ellipsoid.e2]
    · norm_num [EcefKarney.qK]
    · norm_num [EcefKarney.pK, EcefKarney.qK, Ellipsoid.e4, Ellipsoid.e2,
        Ellipsoid.e12]

/-- A Helmert 7-parameter set as constructed by datum.py
`Transform(name, tx, ty, tz, sx, sy, sz, s)`: translations in meters,
rotations `sx, sy, sz` in arc seconds, scale `s` in ppm. -/
structure Transform where
  tx : ℝ
  ty : ℝ
  tz : ℝ
  sx : ℝ
  sy : ℝ
  sz : ℝ
  s : ℝ

/-- datum.py `Transform.__init__`: `self.rx = radians(sx / 3600.0)`. -/
noncomputable def Transform.rx (T : Transform) : ℝ := T.sx / 3600 * (π / 180)

/-- datum.py `Transform.__init__`: `self.ry = radians(sy / 3600.0)`. -/
noncomputable def Transform.ry (T : Transform) : ℝ := T.sy / 3600 * (π / 180)

/-- datum.py `Transform.__init__`: `self.rz = radians(sz / 3600.0)`. -/
noncomputable def Transform.rz (T : Transform) : ℝ := T.sz / 3600 * (π / 180)

/-- datum.py `Transform.__init__`: `self.s1 = s * 1.e-6 + 1`. -/
noncomputable def Transform.s1 (T : Transform) : ℝ := T.s * (1 / 1000000) + 1

/-- datum.py `Transform.inverse`: negate all seven input parameters. -/
def Transform.inverse (T : Transform) : Transform :=
  ⟨-T.tx, -T.ty, -T.tz, -T.sx, -T.sy, -T.sz, -T.s⟩

/-- datum.py `Transform.transform(x, y, z, inverse)`:
`fdot(xyz, tx, _s1, -rz, ry), fdot(xyz, ty, rz, _s1, -rx),
fdot(xyz, tz, -ry, rx, _s1)` with `xyz = (1, x, y, z)` and `_s1 = s1`
forward, `xyz = (-1, -x, -y, -z)` and `_s1 = s1 - 2` inverse. -/
noncomputable def Transform.transform (T : Transform) (x y z : ℝ)
    (inverse : Bool) : ℝ × ℝ × ℝ :=
  let d : ℝ := if inverse then -1 else 1
  let X : ℝ := if inverse then -x else x
  let Y : ℝ := if inverse then -y else y
  let Z : ℝ := if inverse then -z else z
  let s1 : ℝ := if inverse then T.s1 - 2 else T.s1
  (d * T.tx + X * s1 - Y * T.rz + Z * T.ry,
   d * T.ty + X * T.rz + Y * s1 - Z * T.rx,
   d * T.tz - X * T.ry + Y * T.rx + Z * s1)

/-- Forward transform followed by the `inverse=True` transform of the
same `Transform`, as in claim C3. -/
noncomputable def Transform.roundtrip (T : Transform) (x y z : ℝ) :
    ℝ × ℝ × ℝ :=
  let r := T.transform x y z false
  T.transform r.1 r.2.1 r.2.2 true

/-- datum.py registry entry `BD72`. -/
noncomputable def BD72 : Transform :=
  ⟨106.868628, -52.297783, 103.723893, -0.33657, -0.456955, -1.84218, 1.2727⟩

/-- datum.py registry entry `Bessel1841`. -/
noncomputable def Bessel1841 : Transform :=
  ⟨-582.0, -105.0, -414.0, -1.04, -0.35, 3.08, -8.3⟩

/-- datum.py registry entry `Clarke1866` (translation only). -/
noncomputable def Clarke1866 : Transform := ⟨8, -160, -176, 0, 0, 0, 0⟩

/-- datum.py registry entry `DHDN`. -/
noncomputable def DHDN : Transform :=
  ⟨-591.28, -81.35, -396.39, 1.477, -0.0736, -1.458, -9.82⟩

/-- datum.py registry entry `ED50`. -/
noncomputable def ED50 : Transform := ⟨89.5, 93.8, 123.1, 0, 0, 0.156, -1.2⟩

/-- datum.py registry entry `Irl1965`. -/
noncomputable def Irl1965 : Transform :=
  ⟨-482.530, 130.596, -564.557, 1.042, 0.214, 0.631, -8.15⟩

/-- datum.py registry entry `Irl1975`. -/
noncomputable def Irl1975 : Transform :=
  ⟨-482.530, 130.596, -564.557, -1.042, -0.214, -0.631, -1.1⟩

/-- datum.py registry entry `Krassovski1940`. -/
noncomputable def Krassovski1940 : Transform :=
  ⟨-24.0, 123.0, 94.0, -0.02, 0.26, 0.13, -2.423⟩

/-- datum.py registry entry `Krassowsky1940`. -/
noncomputable def Krassowsky1940 : Transform :=
  ⟨-24.0, 123.0, 94.0, -0.02, 0.26, 0.13, -2.423⟩

/-- datum.py registry entry `MGI`. -/
noncomputable def MGI : Transform :=
  ⟨-577.326, -90.129, -463.920, 5.137, 1.474, 5.297, -2.423⟩

/-- datum.py registry entry `NAD27` (translation only). -/
noncomputable def NAD27 : Transform := ⟨8, -160, -176, 0, 0, 0, 0⟩

/-- datum.py registry entry `NAD83`. -/
noncomputable def NAD83 : Transform :=
  ⟨1.004, -1.910, -0.515, 0.0267, 0.00034, 0.011, -0.0015⟩

/-- datum.py registry entry `NTF` (translation only). -/
noncomputable def NTF : Transform := ⟨-168, -60, 320, 0, 0, 0, 0⟩

/-- datum.py registry entry `OSGB36`. -/
noncomputable def OSGB36 : Transform :=
  ⟨-446.448, 125.157, -542.060, -0.1502, -0.2470, -0.8421, 20.4894⟩

/-- datum.py registry entry `TokyoJapan` (translation only). -/
noncomputable def TokyoJapan : Transform := ⟨148, -507, -685, 0, 0, 0, 0⟩

/-- datum.py registry entry `WGS72`. -/
noncomputable def WGS72 : Transform := ⟨0, 0, -4.5, 0, 0, 0.554, -0.22⟩

/-- datum.py registry entry `WGS84` (the unity transform). -/
noncomputable def WGS84Transform : Transform := ⟨0, 0, 0, 0, 0, 0, 0⟩

/-- The `Transforms` registry of datum.py (17 named transforms). -/
noncomputable def Transforms : List Transform :=
  [BD72, Bessel1841, Clarke1866, DHDN, ED50, Irl1965, Irl1975,
   Krassovski1940, Krassowsky1940, MGI, NAD27, NAD83, NTF, OSGB36,
   TokyoJapan, WGS72, WGS84Transform]

/-- C3 counterexample: for the registry transform `OSGB36` the forward
transform followed by the inverse transform does not return the original
point: at the origin the x coordinate of the round trip is about
`tx·(1 - s1) + ty·rz - tz·ry ≈ 0.008 m`, about a million times float
precision at this magnitude, because `transform(..., inverse=True)`
applies the first-order (linearized) inverse `-(1 - s·1e-6)` rather than
the exact inverse. -/
theorem transform_roundtrip_claimC3_false :
    Transform.roundtrip OSGB36 0 0 0 ≠ (0, 0, 0) := by
  intro h
  have hx : (Transform.roundtrip OSGB36 0 0 0).1 = 0 := by rw [h]
  have hπ : π < 3.15 := by
    have := Real.pi_lt_d2
    norm_num at this ⊢
    linarith
  rw [Transform.roundtrip, Transform.transform, Transform.transform] at hx
  simp only [if_false, if_true, Bool.false_eq_true] at hx
  rw [OSGB36] at hx
  simp only [Transform.s1, Transform.rx, Transform.ry, Transform.rz] at hx
  nlinarith [Real.pi_gt_three, hx]

/-- C3 (amended): for every translation-only `Transform` in the registry
(zero rotations and zero scale: `Clarke1866`, `NAD27`, `NTF`,
`TokyoJapan`, `WGS84`), `transform(x, y, z)` followed by
`transform(x', y', z', inverse=True)` returns exactly the original
`(x, y, z)`; for transforms with nonzero rotation or scale the
composition is only a first-order inverse and differs from the identity
(see the counterexample for `OSGB36`). -/
theorem transform_roundtrip_translation_only (T : Transform)
    (_hT : T ∈ Transforms) (hx : T.sx = 0) (hy : T.sy = 0) (hz : T.sz = 0)
    (hs : T.s = 0) (x y z : ℝ) : Transform.roundtrip T x y z = (x, y, z) := by
  have hrx : T.rx = 0 := by rw [Transform.rx, hx]; ring
  have hry : T.ry = 0 := by rw [Transform.ry, hy]; ring
  have hrz : T.rz = 0 := by rw [Transform.rz, hz]; ring
  have hs1 : T.s1 = 1 := by rw [Transform.s1, hs]; ring
  rw [Transform.roundtrip, Transform.transform, Transform.transform]
  simp only [if_false, if_true, Bool.false_eq_true, hrx, hry, hrz, hs1]
  refine Prod.ext ?_ (Prod.ext ?_ ?_) <;> simp <;> ring

/-- Witness for `transform_roundtrip_translation_only` at `Clarke1866`
and the point `(1, 2, 3)`. -/
theorem transform_roundtrip_translation_only_witness :
    Transform.roundtrip Clarke1866 1 2 3 = (1, 2, 3) :=
  transform_roundtrip_translation_only Clarke1866
    (by simp [Transforms]) rfl rfl rfl rfl 1 2 3

/-- Degrees to radians for a rational degree value. -/
noncomputable def radiansQ (d : ℚ) : ℝ := (d : ℝ) * π / 180

/-- Modelled from the spec: utily.py (not in src) `sincos2d(lat, lon)`
returns the sine and cosine of both angles given in degrees. -/
noncomputable def sincos2d (d : ℚ) : ℝ × ℝ :=
  (Real.sin (radiansQ d), Real.cos (radiansQ d))

/-- The geodetic-to-geocentric result of an `Ecef` forward conversion:
the `(x, y, z, lat, lon, height, C, M, datum)` 9-tuple of ecef.py without
the rotation matrix `M` and `datum` (not needed by any claim). -/
structure Ecef9 where
  x : ℝ
  y : ℝ
  z : ℝ
  lat : ℚ
  lon : ℚ
  height : ℚ
  C : ℕ

/-- ecef.py `_llhn4`: the shared argument-normalization helper; raises
`EcefError` when `abs(lat) > 90` (`none` here), otherwise passes the
parsed `(lat, lon, h)` through. -/
def llhn4 (lat lon h : ℚ) : Option (ℚ × ℚ × ℚ) :=
  if 90 < |lat| then none else some (lat, lon, h)

/-- ecef.py `EcefKarney.forward`: closed form via the normal radius of
curvature `n = a / sqrt(1 - e2·sin²φ)`; always returns case code 0. -/
noncomputable def EcefKarney.forward (E : Ellipsoid) (lat lon h : ℚ) :
    Option Ecef9 :=
  match llhn4 lat lon h with
  | none => none
  | some (lat, lon, h) =>
    let sa := (sincos2d lat).1
    let ca := (sincos2d lat).2
    let sb := (sincos2d lon).1
    let cb := (sincos2d lon).2
    let n := (E.a : ℝ) / Real.sqrt (1 - (E.e2 : ℝ) * sa ^ 2)
    let z := ((E.e12 : ℝ) * n + (h : ℝ)) * sa
    let x := (n + (h : ℝ)) * ca
    some ⟨x * cb, x * sb, z, lat, lon, h, 0⟩

/-- ecef.py `EcefVeness.forward`: radius of curvature in the prime
vertical with the `t < EPS` / `t > EPS1` guards; always returns case
code 0.  (`E.e2s2(s) = 1 - e2·s²` from datum.py.) -/
noncomputable def EcefVeness.forward (E : Ellipsoid) (lat lon h : ℚ) :
    Option Ecef9 :=
  match llhn4 lat lon h with
  | none => none
  | some (lat, lon, h) =>
    let sa := (sincos2d lat).1
    let ca := (sincos2d lat).2
    let sb := (sincos2d lon).1
    let cb := (sincos2d lon).2
    let t := 1 - (E.e2 : ℝ) * sa ^ 2
    let r := if t < (EPS : ℝ) then 0
             else if t > (EPS1 : ℝ) then (E.a : ℝ)
             else (E.a : ℝ) / Real.sqrt t
    let x := ((h : ℝ) + r) * ca
    let z := ((h : ℝ) + r * (E.e12 : ℝ)) * sa
    some ⟨x * cb, x * sb, z, lat, lon, h, 0⟩

/-- ecef.py `EcefYou.forward`: `n = 1 / hypot(a·cosφ, b·sinφ)`; always
returns case code 0. -/
noncomputable def EcefYou.forward (E : Ellipsoid) (lat lon h : ℚ) :
    Option Ecef9 :=
  match llhn4 lat lon h with
  | none => none
  | some (lat, lon, h) =>
    let sa := (sincos2d lat).1
    let ca := (sincos2d lat).2
    let sb := (sincos2d lon).1
    let cb := (sincos2d lon).2
    let n := 1 / Real.sqrt (((E.a : ℝ) * ca) ^ 2 + ((E.b : ℝ) * sa) ^ 2)
    let z := (n * ((E.b : ℝ)) ^ 2 + (h : ℝ)) * sa
    let x := (n * ((E.a : ℝ)) ^ 2 + (h : ℝ)) * ca
    some ⟨x * cb, x * sb, z, lat, lon, h, 0⟩

/-- C10: each of the three `Ecef` forward conversions raises `EcefError`
(via the shared helper `_llhn4`) exactly when `|lat| > 90`, and on
success returns case code `C = 0`. -/
theorem ecefForward_latRange (E : Ellipsoid) (lat lon h : ℚ) :
    (EcefKarney.forward E lat lon h = none ↔ 90 < |lat|) ∧
    ((EcefKarney.forward E lat lon h).map Ecef9.C = none ∨
     (EcefKarney.forward E lat lon h).map Ecef9.C = some 0) ∧
    (EcefVeness.forward E lat lon h = none ↔ 90 < |lat|) ∧
    ((EcefVeness.forward E lat lon h).map Ecef9.C = none ∨
     (EcefVeness.forward E lat lon h).map Ecef9.C = some 0) ∧
    (EcefYou.forward E lat lon h = none ↔ 90 < |lat|) ∧
    ((EcefYou.forward E lat lon h).map Ecef9.C = none ∨
     (EcefYou.forward E lat lon h).map Ecef9.C = some 0) := by
  by_cases hl : 90 < |lat|
  · refine ⟨iff_of_true ?_ hl, ?_, iff_of_true ?_ hl, ?_, iff_of_true ?_ hl, ?_⟩ <;>
      simp [EcefKarney.forward, EcefVeness.forward, EcefYou.forward, llhn4, hl]
  · refine ⟨iff_of_false ?_ hl, ?_, iff_of_false ?_ hl, ?_, iff_of_false ?_ hl, ?_⟩ <;>
      simp [EcefKarney.forward, EcefVeness.forward, EcefYou.forward, llhn4, hl]

/-- The `RangeError` kinds raised by the UTM/UPS zone and band logic. -/
inductive RangeErr where
  | latRange : RangeErr
  | lonOffRange : RangeErr
  | latInUTM : RangeErr
deriving DecidableEq

/-- utm.py `_Bands`: latitude bands C..X of 8° each, covering 80°S to
84°N, with X repeated for 80-84°N. -/
def Bands : List Char :=
  ['C', 'D', 'E', 'F', 'G', 'H', 'J', 'K', 'L', 'M', 'N', 'P', 'Q', 'R',
   'S', 'T', 'U', 'V', 'W', 'X', 'X']

/-- Modelled from the spec: utmupsBase.py (not in src) `_UTM_LAT_MIN`;
the spec gives UTM's valid latitude range as [-80, 84). -/
def UTM_LAT_MIN : ℚ := -80

/-- Modelled from the spec: utmupsBase.py (not in src) `_UTM_LAT_MAX`. -/
def UTM_LAT_MAX : ℚ := 84

/-- Modelled from the spec: utmupsBase.py (not in src)
`_UTM_ZONE_OFF_MAX`, the maximal allowed offset in degrees of the
longitude from the zone's central meridian (60° in Karney's UTMUPS). -/
def UTM_ZONE_OFF_MAX : ℚ := 60

/-- Modelled from the spec: utmupsBase.py (not in src) `_UPS_LAT_MIN`:
UPS is valid below -79.5° (south, with 30' overlap into UTM range). -/
def UPS_LAT_MIN : ℚ := -159 / 2

/-- Modelled from the spec: utmupsBase.py (not in src) `_UPS_LAT_MAX`:
UPS is valid above 83.5° (north, with 30' overlap into UTM range). -/
def UPS_LAT_MAX : ℚ := 167 / 2

/-- Modelled from the spec: utmupsBase.py (not in src) `_to3zll`: wraps
lat/lon and computes the longitudinal UTM zone `floor((lon+180)/6) + 1`;
latitude and longitude are assumed already in their standard ranges. -/
def to3zll (lat lon : ℚ) : ℤ × ℚ × ℚ := (⌊(lon + 180) / 6⌋ + 1, lat, lon)

/-- utm.py `_cmlon`: central meridian longitude of a zone,
`zone * 6 - 183`. -/
def cmlon (zone : ℤ) : ℚ := zone * 6 - 183

/-- Modelled from the spec: utmupsBase.py (not in src) `_hemi`:
hemisphere letter, 'S' for southern latitude, 'N' otherwise. -/
def hemi (lat : ℚ) : Char := if lat < 0 then 'S' else 'N'

/-- utm.py `_to3zBll(lat, lon, cmoff)`: returns `(zone, Band, lat, lon)`
or raises `RangeError` when the latitude is outside [-80, 84) or the
longitude is more than `_UTM_ZONE_OFF_MAX` off the zone's central
meridian; applies the Norway (31V → 32V) and Svalbard (X-band zones
32/34/36 shifted by ±1) corrections, then optionally offsets the
longitude from the corrected zone's central meridian. -/
def to3zBll (lat lon : ℚ) (cmoff : Bool) :
    Except RangeErr (ℤ × Char × ℚ × ℚ) :=
  let z0 := (to3zll lat lon).1
  if UTM_LAT_MIN > lat ∨ lat ≥ UTM_LAT_MAX then .error .latRange
  else
    let B := Bands.getD (⌊lat + 80⌋.toNat / 8) 'X'
    if |lon - cmlon z0| > UTM_ZONE_OFF_MAX then .error .lonOffRange
    else
      let z := if B = 'X' then
                 if z0 = 32 then (if lon ≥ 9 then z0 + 1 else z0 - 1)
                 else if z0 = 34 then (if lon ≥ 21 then z0 + 1 else z0 - 1)
                 else if z0 = 36 then (if lon ≥ 33 then z0 + 1 else z0 - 1)
                 else z0
               else if B = 'V' ∧ z0 = 31 ∧ lon ≥ 3 then z0 + 1
               else z0
      .ok (z, B, lat, if cmoff then lon - cmlon z else lon)

/-- utm.py `utmZoneBand5(lat, lon, cmoff=False)`: zone, band, hemisphere
and (clipped) lat/lon, via `_to3zBll`. -/
def utmZoneBand5 (lat lon : ℚ) : Except RangeErr (ℤ × Char × Char × ℚ × ℚ) :=
  match to3zBll lat lon false with
  | .error e => .error e
  | .ok (z, B, lat, lon) => .ok (z, B, hemi lat, lat, lon)

/-- ups.py `_Band(a, b)`: polar band letter from
`('A', 'B', 'Y', 'Z')[(0 if a < 0 else 2) + (0 if b < 0 else 1)]`. -/
def upsBand (lat lon : ℚ) : Char :=
  if lat < 0 then (if lon < 0 then 'A' else 'B')
  else (if lon < 0 then 'Y' else 'Z')

/-- ups.py `upsZoneBand5(lat, lon, strict=True)`: pseudo zone 0 with a
polar band and pole for latitudes beyond the UPS limits; with `strict`
raises `RangeError` for latitudes inside the UTM range. -/
def upsZoneBand5 (lat lon : ℚ) (strict : Bool) :
    Except RangeErr (ℤ × Char × Char × ℚ × ℚ) :=
  let z := (to3zll lat lon).1
  if lat < UPS_LAT_MIN then .ok (0, upsBand lat lon, 'S', lat, lon)
  else if lat > UPS_LAT_MAX then .ok (0, upsBand lat lon, 'N', lat, lon)
  else if strict then .error .latInUTM
  else .ok (z, ' ', hemi lat, lat, lon)

/-- utmups.py `utmupsZoneBand5(lat, lon, cmoff=False)`: tries the UTM
zone/band computation first and, on `RangeError` (the only error kind
`utmZoneBand5` raises), falls back to the UPS zone/band computation. -/
def utmupsZoneBand5 (lat lon : ℚ) : Except RangeErr (ℤ × Char × Char × ℚ × ℚ) :=
  match utmZoneBand5 lat lon with
  | .ok r => .ok r
  | .error _ => upsZoneBand5 lat lon true

/-- For any longitude, the offset from the central meridian of the zone
computed from that longitude is at most 3°: with `u = lon + 180`,
`lon - cmlon(floor(u/6) + 1) = 6·fract(u/6) - 3 ∈ [-3, 3)`. -/
lemma cmlon_offset_le (lon : ℚ) : |lon - cmlon (⌊(lon + 180) / 6⌋ + 1)| ≤ 3 := by
  have hval : lon - cmlon (⌊(lon + 180) / 6⌋ + 1) =
      6 * Int.fract ((lon + 180) / 6) - 3 := by
    rw [cmlon, Int.fract]
    push_cast
    ring
  rw [hval, abs_le]
  have h0 := Int.fract_nonneg ((lon + 180) / 6)
  have h1 := Int.fract_lt_one ((lon + 180) / 6)
  constructor <;> nlinarith

/-- Function `utmZoneBand5` raises `RangeError` exactly for latitudes outside
[-80, 84): the longitude-offset check can never fire because the zone is
derived from the longitude itself (`cmlon_offset_le`). -/
lemma utmZoneBand5_error_iff (lat lon : ℚ) :
    (∃ e, utmZoneBand5 lat lon = .error e) ↔ lat < -80 ∨ 84 ≤ lat := by
  have hoff : ¬ |lon - cmlon (to3zll lat lon).1| > UTM_ZONE_OFF_MAX := by
    rw [not_lt, UTM_ZONE_OFF_MAX, to3zll]
    calc |lon - cmlon (⌊(lon + 180) / 6⌋ + 1)| ≤ 3 := cmlon_offset_le lon
    _ ≤ 60 := by norm_num
  by_cases hlat : UTM_LAT_MIN > lat ∨ lat ≥ UTM_LAT_MAX
  · rw [iff_true_right (by simpa [UTM_LAT_MIN, UTM_LAT_MAX, ge_iff_le] using hlat)]
    exact ⟨.latRange, by simp [utmZoneBand5, to3zBll, hlat]⟩
  · rw [iff_false_right (by simpa [UTM_LAT_MIN, UTM_LAT_MAX, ge_iff_le] using hlat)]
    rintro ⟨e, he⟩
    simp only [utmZoneBand5, to3zBll, if_neg hlat, if_neg hoff] at he
    exact Except.noConfusion he

/-- C5: `utmupsZoneBand5` first attempts the UTM zone/band computation;
exactly when that attempt raises `RangeError` — which happens exactly for
latitudes outside UTM's valid [-80, 84) range — it falls back to and
returns the (always succeeding) UPS zone/band computation instead of
propagating the error. -/
theorem utmupsZoneBand5_dispatch (lat lon : ℚ) :
    ((∃ e, utmZoneBand5 lat lon = .error e) ↔ lat < -80 ∨ 84 ≤ lat) ∧
    (¬ (lat < -80 ∨ 84 ≤ lat) →
      utmupsZoneBand5 lat lon = utmZoneBand5 lat lon) ∧
    (lat < -80 ∨ 84 ≤ lat →
      utmupsZoneBand5 lat lon = upsZoneBand5 lat lon true ∧
      ∃ r, upsZoneBand5 lat lon true = .ok r) := by
  refine ⟨utmZoneBand5_error_iff lat lon, ?_, ?_⟩
  · intro hin
    have hok : ∀ e, utmZoneBand5 lat lon ≠ .error e := by
      intro e he
      exact hin ((utmZoneBand5_error_iff lat lon).mp ⟨e, he⟩)
    rcases hu : utmZoneBand5 lat lon with e | r
    · exact absurd hu (hok e)
    · simp [utmupsZoneBand5, hu]
  · intro hout
    obtain ⟨e, he⟩ := (utmZoneBand5_error_iff lat lon).mpr hout
    constructor
    · simp [utmupsZoneBand5, he]
    · rcases hout with hs | hn
      · exact ⟨(0, upsBand lat lon, 'S', lat, lon), by simp only [upsZoneBand5,
          if_pos (show lat < UPS_LAT_MIN by rw [UPS_LAT_MIN]; linarith)]⟩
      · have h1 : ¬ lat < UPS_LAT_MIN := by rw [UPS_LAT_MIN]; push_neg; linarith
        have h2 : lat > UPS_LAT_MAX := by rw [UPS_LAT_MAX]; linarith
        exact ⟨(0, upsBand lat lon, 'N', lat, lon),
          by simp only [upsZoneBand5, if_neg h1, if_pos h2]⟩

/-- Witness for `utmupsZoneBand5_dispatch` at `(lat, lon) = (85, 10)`:
the UTM attempt fails (85 ≥ 84) and the dispatcher returns the UPS
result. -/
theorem utmupsZoneBand5_dispatch_witness :
    utmupsZoneBand5 85 10 = upsZoneBand5 85 10 true ∧
    ∃ r, upsZoneBand5 85 10 true = .ok r :=
  (utmupsZoneBand5_dispatch 85 10).2.2 (Or.inr (by norm_num))

/-- C7: for latitudes in UTM range, `_to3zBll` returns the band letter
`_Bands[(lat+80) >> 3]` and the zone `z0 = floor((lon+180)/6) + 1`
adjusted by the special cases: in band V, zone 31 with lon ≥ 3 becomes
zone 32 (Norway); in band X, zones 32, 34 and 36 are shifted by ±1 so
that among them only zones 31, 33, 35, 37 occur (Svalbard); all other
inputs keep the base zone `z0`. -/
theorem to3zBll_zone_band (lat lon : ℚ) (h1 : -80 ≤ lat) (h2 : lat < 84) :
    ∃ z : ℤ,
      to3zBll lat lon false =
        .ok (z, Bands.getD (⌊lat + 80⌋.toNat / 8) 'X', lat, lon) ∧
      (Bands.getD (⌊lat + 80⌋.toNat / 8) 'X' = 'V' ∧
        ⌊(lon + 180) / 6⌋ + 1 = 31 ∧ 3 ≤ lon → z = 32) ∧
      (Bands.getD (⌊lat + 80⌋.toNat / 8) 'X' = 'X' →
        z ≠ 32 ∧ z ≠ 34 ∧ z ≠ 36) ∧
      (Bands.getD (⌊lat + 80⌋.toNat / 8) 'X' = 'X' ∧
        (⌊(lon + 180) / 6⌋ + 1 = 32 ∨ ⌊(lon + 180) / 6⌋ + 1 = 34 ∨
         ⌊(lon + 180) / 6⌋ + 1 = 36) →
        z = ⌊(lon + 180) / 6⌋ + 1 + 1 ∨ z = ⌊(lon + 180) / 6⌋ + 1 - 1) ∧
      (¬ (Bands.getD (⌊lat + 80⌋.toNat / 8) 'X' = 'X' ∧
          (⌊(lon + 180) / 6⌋ + 1 = 32 ∨ ⌊(lon + 180) / 6⌋ + 1 = 34 ∨
           ⌊(lon + 180) / 6⌋ + 1 = 36)) →
        ¬ (Bands.getD (⌊lat + 80⌋.toNat / 8) 'X' = 'V' ∧
           ⌊(lon + 180) / 6⌋ + 1 = 31 ∧ 3 ≤ lon) →
        z = ⌊(lon + 180) / 6⌋ + 1) := by
  have hlat : ¬ (UTM_LAT_MIN > lat ∨ lat ≥ UTM_LAT_MAX) := by
    rw [UTM_LAT_MIN, UTM_LAT_MAX]
    push_neg
    exact ⟨by linarith, by linarith⟩
  have hoff : ¬ |lon - cmlon (⌊(lon + 180) / 6⌋ + 1)| > UTM_ZONE_OFF_MAX := by
    rw [not_lt, UTM_ZONE_OFF_MAX]
    calc |lon - cmlon (⌊(lon + 180) / 6⌋ + 1)| ≤ 3 := cmlon_offset_le lon
    _ ≤ 60 := by norm_num
  simp only [to3zBll, to3zll, if_neg hlat, if_neg hoff, Bool.false_eq_true,
    if_false]
  set B := Bands.getD (⌊lat + 80⌋.toNat / 8) 'X' with hB
  set z0 : ℤ := ⌊(lon + 180) / 6⌋ + 1 with hz0
  refine ⟨_, rfl, ?_, ?_, ?_, ?_⟩
  · rintro ⟨hV, h31, h3⟩
    have hX : ¬ B = 'X' := by rw [hV]; decide
    rw [if_neg hX, if_pos ⟨hV, h31, h3⟩, h31]
    omega
  · intro hX
    rw [if_pos hX]
    split_ifs <;> omega
  · rintro ⟨hX, hz⟩
    rw [if_pos hX]
    rcases hz with hz | hz | hz <;> rw [hz] <;> split_ifs <;> omega
  · intro hns hnv
    by_cases hX : B = 'X'
    · rw [if_pos hX]
      have h32 : z0 ≠ 32 := fun hc => hns ⟨hX, Or.inl hc⟩
      have h34 : z0 ≠ 34 := fun hc => hns ⟨hX, Or.inr (Or.inl hc)⟩
      have h36 : z0 ≠ 36 := fun hc => hns ⟨hX, Or.inr (Or.inr hc)⟩
      rw [if_neg h32, if_neg h34, if_neg h36]
    · rw [if_neg hX, if_neg (fun hc => hnv hc)]

/-- Witness for `to3zBll_zone_band` at `(lat, lon) = (60, 5)`: band V,
base zone 31, south-western Norway, re-zoned to 32. -/
theorem to3zBll_zone_band_witness :
    (-80 : ℚ) ≤ 60 ∧ (60 : ℚ) < 84 ∧
    ∃ z : ℤ,
      to3zBll 60 5 false =
        .ok (z, Bands.getD (⌊(60 : ℚ) + 80⌋.toNat / 8) 'X', 60, 5) ∧
      (Bands.getD (⌊(60 : ℚ) + 80⌋.toNat / 8) 'X' = 'V' ∧
        ⌊((5 : ℚ) + 180) / 6⌋ + 1 = 31 ∧ 3 ≤ (5 : ℚ) → z = 32) ∧
      (Bands.getD (⌊(60 : ℚ) + 80⌋.toNat / 8) 'X' = 'X' →
        z ≠ 32 ∧ z ≠ 34 ∧ z ≠ 36) ∧
      (Bands.getD (⌊(60 : ℚ) + 80⌋.toNat / 8) 'X' = 'X' ∧
        (⌊((5 : ℚ) + 180) / 6⌋ + 1 = 32 ∨ ⌊((5 : ℚ) + 180) / 6⌋ + 1 = 34 ∨
         ⌊((5 : ℚ) + 180) / 6⌋ + 1 = 36) →
        z = ⌊((5 : ℚ) + 180) / 6⌋ + 1 + 1 ∨ z = ⌊((5 : ℚ) + 180) / 6⌋ + 1 - 1) ∧
      (¬ (Bands.getD (⌊(60 : ℚ) + 80⌋.toNat / 8) 'X' = 'X' ∧
          (⌊((5 : ℚ) + 180) / 6⌋ + 1 = 32 ∨ ⌊((5 : ℚ) + 180) / 6⌋ + 1 = 34 ∨
           ⌊((5 : ℚ) + 180) / 6⌋ + 1 = 36)) →
        ¬ (Bands.getD (⌊(60 : ℚ) + 80⌋.toNat / 8) 'X' = 'V' ∧
           ⌊((5 : ℚ) + 180) / 6⌋ + 1 = 31 ∧ 3 ≤ (5 : ℚ)) →
        z = ⌊((5 : ℚ) + 180) / 6⌋ + 1) :=
  ⟨by norm_num, by norm_num, to3zBll_zone_band 60 5 (by norm_num) (by norm_num)⟩

/-- utm.py `_K0 = 0.9996`, the UTM central-meridian scale factor. -/
def K0 : ℚ := 9996 / 10000

/-- utm.py `_FalseEasting = 500e3`. -/
def FalseEasting : ℚ := 500000

/-- utm.py `_FalseNorthing = 10000e3`. -/
def FalseNorthing : ℚ := 10000000

/-- datum.py `A`: the UTM meridional radius
`a / (1 + n) * fsum_(65536, 16384 n², 1024 n⁴, 256 n⁶, 100 n⁸, 49 n¹⁰) / 65536`. -/
def Ellipsoid.A (E : Ellipsoid) : ℚ :=
  E.a / (1 + E.n) *
    ((65536 + 16384 * E.n ^ 2 + 1024 * E.n ^ 4 + 256 * E.n ^ 6 +
      100 * E.n ^ 8 + 49 * E.n ^ 10) / 65536)

/-- datum.py `AlphaKs`: the 8th-order Krüger Alpha series coefficients,
`AlphaKs[i] = fdot(AB8Ks[i][:8-i], n^(i+1), ..., n^8)` with the rational
coefficient table of `Ellipsoid.AlphaKs`. -/
def Ellipsoid.alphaKs (E : Ellipsoid) : List ℚ :=
  [E.n / 2 - 2 / 3 * E.n ^ 2 + 5 / 16 * E.n ^ 3 + 41 / 180 * E.n ^ 4 -
     127 / 288 * E.n ^ 5 + 7891 / 37800 * E.n ^ 6 +
     72161 / 387072 * E.n ^ 7 - 18975107 / 50803200 * E.n ^ 8,
   13 / 48 * E.n ^ 2 - 3 / 5 * E.n ^ 3 + 557 / 1440 * E.n ^ 4 +
     281 / 630 * E.n ^ 5 - 1983433 / 1935360 * E.n ^ 6 +
     13769 / 28800 * E.n ^ 7 + 148003883 / 174182400 * E.n ^ 8,
   61 / 240 * E.n ^ 3 - 103 / 140 * E.n ^ 4 + 15061 / 26880 * E.n ^ 5 +
     167603 / 181440 * E.n ^ 6 - 67102379 / 29030400 * E.n ^ 7 +
     79682431 / 79833600 * E.n ^ 8,
   49561 / 161280 * E.n ^ 4 - 179 / 168 * E.n ^ 5 +
     6601661 / 7257600 * E.n ^ 6 + 97445 / 49896 * E.n ^ 7 -
     40176129013 / 7664025600 * E.n ^ 8,
   34729 / 80640 * E.n ^ 5 - 3418889 / 1995840 * E.n ^ 6 +
     14644087 / 9123840 * E.n ^ 7 + 2605413599 / 622702080 * E.n ^ 8,
   212378941 / 319334400 * E.n ^ 6 - 30705481 / 10378368 * E.n ^ 7 +
     175214326799 / 58118860800 * E.n ^ 8,
   1522256789 / 1383782400 * E.n ^ 7 - 16759934899 / 3113510400 * E.n ^ 8,
   1424729850961 / 743921418240 * E.n ^ 8]

/-- The inverse hyperbolic tangent, `atanh x = log((1+x)/(1-x)) / 2`
(math.atanh; not available in Mathlib). -/
noncomputable def artanhR (x : ℝ) : ℝ := Real.log ((1 + x) / (1 - x)) / 2

/-- Two-argument arctangent (math.atan2), the standard total version. -/
noncomputable def atan2 (y x : ℝ) : ℝ :=
  if 0 < x then Real.arctan (y / x)
  else if x < 0 then
    (if 0 ≤ y then Real.arctan (y / x) + π else Real.arctan (y / x) - π)
  else (if 0 < y then π / 2 else if y < 0 then -(π / 2) else 0)

/-- Radians to degrees. -/
noncomputable def degreesR (r : ℝ) : ℝ := r * 180 / π

/-- utm.py `_Kseries.xs(x0)`: `x0 + Σᵢ ab[i]·cos(2(i+1)·y)·sinh(2(i+1)·x)`
(the eta summation with the cached `cos`/`sinh` values). -/
noncomputable def kSeriesXs (ab : List ℚ) (x y x0 : ℝ) : ℝ :=
  x0 + ∑ i ∈ Finset.range ab.length,
    (ab.getD i 0 : ℝ) * Real.cos ((2 * (i + 1) : ℕ) * y) *
      Real.sinh ((2 * (i + 1) : ℕ) * x)

/-- utm.py `_Kseries.ys(y0)`: the ksi summation `sin`/`cosh`. -/
noncomputable def kSeriesYs (ab : List ℚ) (x y y0 : ℝ) : ℝ :=
  y0 + ∑ i ∈ Finset.range ab.length,
    (ab.getD i 0 : ℝ) * Real.sin ((2 * (i + 1) : ℕ) * y) *
      Real.cosh ((2 * (i + 1) : ℕ) * x)

/-- utm.py `_Kseries.ps(p0)`: the summation with `pq = j2·ab`,
`cos`/`cosh`. -/
noncomputable def kSeriesPs (ab : List ℚ) (x y p0 : ℝ) : ℝ :=
  p0 + ∑ i ∈ Finset.range ab.length,
    ((2 * (i + 1) : ℕ) : ℝ) * (ab.getD i 0 : ℝ) *
      Real.cos ((2 * (i + 1) : ℕ) * y) * Real.cosh ((2 * (i + 1) : ℕ) * x)

/-- utm.py `_Kseries.qs(q0)`: the summation with `pq = j2·ab`,
`sin`/`sinh`. -/
noncomputable def kSeriesQs (ab : List ℚ) (x y q0 : ℝ) : ℝ :=
  q0 + ∑ i ∈ Finset.range ab.length,
    ((2 * (i + 1) : ℕ) : ℝ) * (ab.getD i 0 : ℝ) *
      Real.sin ((2 * (i + 1) : ℕ) * y) * Real.sinh ((2 * (i + 1) : ℕ) * x)

/-- A UTM coordinate as returned by utm.py `toUtm8` (with `Utm=None`):
`(zone, hemipole, easting, northing, band, convergence, scale)` — the
`datum` member is not needed by any claim. -/
structure Utm8 where
  zone : ℤ
  hemipole : Char
  easting : ℝ
  northing : ℝ
  band : Char
  convergence : ℝ
  scale : ℝ

/-- utm.py `toUtm8(latlon, lon, datum)` for scalar `lat`/`lon`, the
default WGS-style datum ellipsoid `E` and no explicit zone override:
resolves zone/band via `_to3zBll` (with the central-meridian offset
applied), raising `RangeError` exactly as `_to3zBll` does, then computes
easting/northing by the 8th-order Krüger Alpha series (Karney 2011
Eq 7-14, 29, 35), the meridian convergence (Eq 23, 24) and the point
scale (Eq 25), and falses easting/northing per `_false2`. -/
noncomputable def toUtm8 (E : Ellipsoid) (lat lon : ℚ) :
    Except RangeErr Utm8 :=
  match to3zBll lat lon true with
  | .error e => .error e
  | .ok (z, B, lat, lon) =>
    let a := radiansQ lat
    let b := radiansQ lon
    let sb := Real.sin b
    let cb := Real.cos b
    let T := Real.tan a
    let T12 := Real.sqrt (1 + T ^ 2)
    let e := Real.sqrt |(E.e2 : ℝ)|
    let S := Real.sinh (e * artanhR (e * T / T12))
    let T_ := T * Real.sqrt (1 + S ^ 2) - S * T12
    let H := Real.sqrt (T_ ^ 2 + cb ^ 2)
    let y0 := atan2 T_ cb
    let x0 := Real.arsinh (sb / H)
    let A0 := (E.A : ℝ) * (K0 : ℝ)
    let y1 := kSeriesYs E.alphaKs x0 y0 y0 * A0
    let x1 := kSeriesXs E.alphaKs x0 y0 x0 * A0
    let p_ := kSeriesPs E.alphaKs x0 y0 1
    let q_ := kSeriesQs E.alphaKs x0 y0 0
    let c := degreesR (Real.arctan (T_ / Real.sqrt (1 + T_ ^ 2) * Real.tan b)
                        + atan2 q_ p_)
    let k := Real.sqrt (1 - (E.e2 : ℝ) * (Real.sin a) ^ 2) * T12 / H *
               (A0 / (E.a : ℝ) * Real.sqrt (p_ ^ 2 + q_ ^ 2))
    let h := hemi lat
    let x2 := x1 + (FalseEasting : ℝ)
    let y2 := if h = 'S' then y1 + (FalseNorthing : ℝ) else y1
    .ok ⟨z, h, x2, y2, B, c, k⟩

/-- C6: `toUtm8` raises `RangeError` exactly when the latitude lies
outside [-80, 84) or the longitude's offset from the resolved zone's
central meridian exceeds the allowed maximum `_UTM_ZONE_OFF_MAX`; for
inputs inside those bounds no `RangeError` is raised. -/
theorem toUtm8_rangeError (E : Ellipsoid) (lat lon : ℚ) :
    (∃ e, toUtm8 E lat lon = .error e) ↔
      lat < -80 ∨ 84 ≤ lat ∨
      |lon - cmlon (⌊(lon + 180) / 6⌋ + 1)| > UTM_ZONE_OFF_MAX := by
  have hoff : ¬ |lon - cmlon (⌊(lon + 180) / 6⌋ + 1)| > UTM_ZONE_OFF_MAX := by
    rw [not_lt, UTM_ZONE_OFF_MAX]
    calc |lon - cmlon (⌊(lon + 180) / 6⌋ + 1)| ≤ 3 := cmlon_offset_le lon
    _ ≤ 60 := by norm_num
  by_cases hlat : UTM_LAT_MIN > lat ∨ lat ≥ UTM_LAT_MAX
  · refine iff_of_true ⟨.latRange, by simp [toUtm8, to3zBll, hlat]⟩ ?_
    rcases hlat with h | h
    · exact Or.inl (by rw [UTM_LAT_MIN] at h; exact h)
    · exact Or.inr (Or.inl (by rw [UTM_LAT_MAX] at h; exact h))
  · have hout : ¬ (lat < -80 ∨ 84 ≤ lat ∨
        |lon - cmlon (⌊(lon + 180) / 6⌋ + 1)| > UTM_ZONE_OFF_MAX) := by
      push_neg
      rw [UTM_LAT_MIN, UTM_LAT_MAX] at hlat
      push_neg at hlat
      exact ⟨by linarith [hlat.1], by linarith [hlat.2], not_lt.mp hoff⟩
    rw [iff_false_right hout]
    rintro ⟨e, he⟩
    simp only [toUtm8, to3zBll, to3zll, if_neg hlat, if_neg hoff] at he
    exact Except.noConfusion he

/-- ellipsoidalVincenty.py: `LatLon._epsilon = 1.0e-12` (about 0.006 mm),
the default Vincenty convergence tolerance. -/
def LatLon.epsilon : ℚ := 1 / 10 ^ 12

/-- ellipsoidalVincenty.py: `LatLon._iterations = 100`, the default
Vincenty iteration limit. -/
def LatLon.iterations : ℕ := 100

/-- The two `VincentyError` kinds raised by the solver: "ambiguous"
(antipodal points, no unique solution) and "no convergence" (iteration
limit exhausted). -/
inductive VincentyErr where
  | ambiguous : VincentyErr
  | noConvergence : VincentyErr
deriving DecidableEq

/-- The result of `LatLon._inverse`: a distance, or a distance with
forward and reverse azimuth when azimuths were requested. -/
inductive VOut where
  | dist (d : ℝ) : VOut
  | dist3 (d fwd rev : ℝ) : VOut

/-- Python's float modulo (sign follows the divisor; used with positive
divisor 360 here): `a - n * floor(a / n)`. -/
def pymod (a n : ℚ) : ℚ := a - n * ⌊a / n⌋

/-- formy.py `isantipode(lat1, lon1, lat2, lon2, eps)`:
`abs(wrap90(lat1) + wrap90(lat2)) < eps and
abs(abs(wrap180(lon1) - wrap180(lon2)) % 360 - 180) < eps`.
The wrap90/wrap180 normalizations live in utily.py (not in src) and are
modelled as the identity: the claims only apply this to latitudes in
[-90, 90] and longitudes in (-180, 180], where the wraps do nothing. -/
def isantipode (lat1 lon1 lat2 lon2 eps : ℚ) : Prop :=
  |lat1 + lat2| < eps ∧ |pymod |lon1 - lon2| 360 - 180| < eps

instance (lat1 lon1 lat2 lon2 eps : ℚ) :
    Decidable (isantipode lat1 lon1 lat2 lon2 eps) :=
  instDecidableAnd

/-- ellipsoidalVincenty.py `_r3(a, f)`: reduced cos, sin, tan:
`t = (1 - f)·tan(radians a)`, `c = 1 / hypot1 t`, `s = t·c`. -/
noncomputable def r3 (a : ℚ) (f : ℝ) : ℝ × ℝ × ℝ :=
  let t := (1 - f) * Real.tan (radiansQ a)
  let c := 1 / Real.sqrt (1 + t ^ 2)
  (c, t * c, t)

/-- ellipsoidalVincenty.py `_p2(u2)`, first component: the Vincenty `A`
polynomial `fpolynomial(u2, 16384, 4096, -768, 320, -175) / 16384`. -/
noncomputable def p2A (u2 : ℝ) : ℝ :=
  (16384 + 4096 * u2 - 768 * u2 ^ 2 + 320 * u2 ^ 3 - 175 * u2 ^ 4) / 16384

/-- ellipsoidalVincenty.py `_p2(u2)`, second component: the Vincenty `B`
polynomial `fpolynomial(u2, 0, 256, -128, 74, -47) / 1024`. -/
noncomputable def p2B (u2 : ℝ) : ℝ :=
  (256 * u2 - 128 * u2 ^ 2 + 74 * u2 ^ 3 - 47 * u2 ^ 4) / 1024

/-- ellipsoidalVincenty.py `_ds(B, cs, ss, c2sm)`: the core Vincenty
distance-correction term. -/
noncomputable def dsV (B cs ss c2sm : ℝ) : ℝ :=
  B * ss * (c2sm + B / 4 * ((2 * c2sm ^ 2 - 1) * cs -
    B / 6 * c2sm * ((4 * ss ^ 2 - 3) * (2 * (2 * c2sm ^ 2 - 1) - 1))))

/-- ellipsoidalVincenty.py `_dl(f, c2a, sa, s, cs, ss, c2sm)`: the core
Vincenty longitude-correction term. -/
noncomputable def dlV (f c2a sa s cs ss c2sm : ℝ) : ℝ :=
  (1 - f / 16 * c2a * (4 + f * (4 - 3 * c2a))) * f * sa *
    (s + f / 16 * c2a * (4 + f * (4 - 3 * c2a)) * ss *
      (c2sm + f / 16 * c2a * (4 + f * (4 - 3 * c2a)) * cs *
        (2 * c2sm ^ 2 - 1)))

/-- Modelled from the spec: utily.py (not in src) `degrees360`: radians
to degrees wrapped into [0, 360). -/
noncomputable def degrees360R (r : ℝ) : ℝ :=
  degreesR r - 360 * ⌊degreesR r / 360⌋

/-- The per-call parameters of `LatLon._inverse` that stay fixed during
the λ iteration: flattening `f`, minor axis `b`, the reduced-latitude
sines/cosines of both points, the initial longitude difference `dl` (in
radians), the second eccentricity squared, the precomputed
antipodal test, the `azis` flag and the convergence tolerance. -/
structure InvP where
  f : ℝ
  b : ℝ
  c1 : ℝ
  s1 : ℝ
  c2 : ℝ
  s2 : ℝ
  dl : ℝ
  e22 : ℝ
  antipodal : Prop
  azis : Bool
  epsilon : ℝ

/-- The values live at the `break` of the `LatLon._inverse` loop:
`s, cs, ss, c2a, c2sm` and the final `ll`.  (When the equatorial-line
branch set `c2a = 0`, the stale `c2sm` is never read afterwards because
the post-loop correction is guarded by `if c2a:`; it is recorded as 0
here.) -/
structure InvBreak where
  s : ℝ
  cs : ℝ
  ss : ℝ
  c2a : ℝ
  c2sm : ℝ
  ll : ℝ

/-- The post-loop computation of `LatLon._inverse`: when `c2a ≠ 0` apply
the `_p2`/`_ds` distance correction, scale by the minor axis `b`, and
when azimuths were requested compute the forward and reverse azimuth
from the final `ll`. -/
noncomputable def vincentyInverseFinish (P : InvP) (st : InvBreak) : VOut :=
  let s := if st.c2a ≠ 0 then
      p2A (st.c2a * P.e22) * (st.s - dsV (p2B (st.c2a * P.e22)) st.cs st.ss st.c2sm)
    else st.s
  let d := P.b * s
  if P.azis then
    let sll := Real.sin st.ll
    let cll := Real.cos st.ll
    VOut.dist3 d
      (degrees360R (atan2 (P.c2 * sll) (P.c1 * P.s2 - P.s1 * P.c2 * cll)))
      (degrees360R (atan2 (P.c1 * sll) (-(P.s1 * P.c2) + P.c1 * P.s2 * cll)))
  else VOut.dist d

/-- One update of the λ iteration of `LatLon._inverse` (the value `ll`
takes at the end of the loop body), for a state that did not hit the
`ss < EPS` early return. -/
noncomputable def invStep (P : InvP) (ll : ℝ) : ℝ :=
  let sll := Real.sin ll
  let cll := Real.cos ll
  let ss := Real.sqrt ((P.c2 * sll) ^ 2 + (P.c1 * P.s2 - P.s1 * P.c2 * cll) ^ 2)
  let cs := P.s1 * P.s2 + P.c1 * P.c2 * cll
  let s := atan2 ss cs
  let sa := P.c1 * P.c2 * sll / ss
  let c2a := 1 - sa ^ 2
  if |c2a| < (EPS : ℝ) then P.dl + P.f * sa * s
  else P.dl + dlV P.f c2a sa s cs ss (cs - 2 * P.s1 * P.s2 / c2a)

/-- The `for` loop of `LatLon._inverse` (ellipsoidalVincenty.py lines
556-612), with the iteration budget as explicit fuel: on each pass it
computes `ss` and
* raises `VincentyError("ambiguous, ...")` for antipodal points or
  returns zero distance (and zero azimuths) when `ss < EPS`,
* otherwise updates `ll` by `invStep` and stops successfully once
  `|ll' - ll| < epsilon`,
* raises `VincentyError("no convergence, ...")` when the fuel runs out. -/
noncomputable def vincentyInverseLoop (P : InvP) :
    ℕ → ℝ → Except VincentyErr VOut
  | 0, _ => .error .noConvergence
  | n + 1, ll =>
    let sll := Real.sin ll
    let cll := Real.cos ll
    let ss := Real.sqrt ((P.c2 * sll) ^ 2 + (P.c1 * P.s2 - P.s1 * P.c2 * cll) ^ 2)
    if ss < (EPS : ℝ) then
      if P.antipodal then .error .ambiguous
      else .ok (if P.azis then VOut.dist3 0 0 0 else VOut.dist 0)
    else
      let cs := P.s1 * P.s2 + P.c1 * P.c2 * cll
      let s := atan2 ss cs
      let sa := P.c1 * P.c2 * sll / ss
      let c2a0 := 1 - sa ^ 2
      let c2a := if |c2a0| < (EPS : ℝ) then 0 else c2a0
      let c2sm := if |c2a0| < (EPS : ℝ) then 0 else cs - 2 * P.s1 * P.s2 / c2a0
      let ll' := invStep P ll
      if |ll' - ll| < P.epsilon then
        .ok (vincentyInverseFinish P ⟨s, cs, ss, c2a, c2sm, ll'⟩)
      else vincentyInverseLoop P n ll'

/-- The `InvP` parameter block that `LatLon._inverse` sets up before its
λ iteration, for two points on ellipsoid `E` (their common datum): the
reduced-latitude trigonometry of both points via `_r3`, the longitude
difference unrolled as `lon2 - lon1` (utily.py `unroll180` with
`wrap=False`, not in src, modelled from the spec: "iterates longitude
difference λ"), the antipodal test `isantipodeTo(other, eps=epsilon)`,
the default epsilon 1e-12 and the `azis` flag. -/
noncomputable def invParams (E : Ellipsoid) (lat1 lon1 lat2 lon2 : ℚ)
    (azis : Bool) : InvP :=
  { f := (E.f : ℝ)
    b := (E.b : ℝ)
    c1 := (r3 lat1 (E.f : ℝ)).1
    s1 := (r3 lat1 (E.f : ℝ)).2.1
    c2 := (r3 lat2 (E.f : ℝ)).1
    s2 := (r3 lat2 (E.f : ℝ)).2.1
    dl := radiansQ (lon2 - lon1)
    e22 := (E.e22 : ℝ)
    antipodal := isantipode lat1 lon1 lat2 lon2 LatLon.epsilon
    azis := azis
    epsilon := ((LatLon.epsilon : ℚ) : ℝ) }

@[simp] lemma invParams_c1 (E : Ellipsoid) (lat1 lon1 lat2 lon2 : ℚ) (azis : Bool) :
    (invParams E lat1 lon1 lat2 lon2 azis).c1 = (r3 lat1 (E.f : ℝ)).1 := rfl

@[simp] lemma invParams_s1 (E : Ellipsoid) (lat1 lon1 lat2 lon2 : ℚ) (azis : Bool) :
    (invParams E lat1 lon1 lat2 lon2 azis).s1 = (r3 lat1 (E.f : ℝ)).2.1 := rfl

@[simp] lemma invParams_c2 (E : Ellipsoid) (lat1 lon1 lat2 lon2 : ℚ) (azis : Bool) :
    (invParams E lat1 lon1 lat2 lon2 azis).c2 = (r3 lat2 (E.f : ℝ)).1 := rfl

@[simp] lemma invParams_s2 (E : Ellipsoid) (lat1 lon1 lat2 lon2 : ℚ) (azis : Bool) :
    (invParams E lat1 lon1 lat2 lon2 azis).s2 = (r3 lat2 (E.f : ℝ)).2.1 := rfl

@[simp] lemma invParams_antipodal (E : Ellipsoid) (lat1 lon1 lat2 lon2 : ℚ)
    (azis : Bool) : (invParams E lat1 lon1 lat2 lon2 azis).antipodal =
      isantipode lat1 lon1 lat2 lon2 LatLon.epsilon := rfl

@[simp] lemma invParams_azis (E : Ellipsoid) (lat1 lon1 lat2 lon2 : ℚ)
    (azis : Bool) : (invParams E lat1 lon1 lat2 lon2 azis).azis = azis := rfl

/-- Method `LatLon._inverse(other, azis, wrap)` of ellipsoidalVincenty.py for
two points on ellipsoid `E` (their common datum), with the longitude
difference unrolled as `lon2 - lon1` (utily.py `unroll180` with
`wrap=False`, not in src, modelled from the spec: "iterates longitude
difference λ"), the default epsilon 1e-12 and iteration limit 100. -/
noncomputable def vincentyInverse (E : Ellipsoid) (lat1 lon1 lat2 lon2 : ℚ)
    (azis : Bool) : Except VincentyErr VOut :=
  vincentyInverseLoop (invParams E lat1 lon1 lat2 lon2 azis)
    LatLon.iterations (radiansQ (lon2 - lon1))

/-- When the auxiliary-sphere sine `ss` is below `EPS` on entering a loop
pass, `LatLon._inverse` immediately raises "ambiguous" for antipodal
points and returns zeros otherwise. -/
lemma vincentyInverseLoop_early (P : InvP) (n : ℕ) (ll : ℝ)
    (hss : Real.sqrt ((P.c2 * Real.sin ll) ^ 2 +
      (P.c1 * P.s2 - P.s1 * P.c2 * Real.cos ll) ^ 2) < (EPS : ℝ)) :
    vincentyInverseLoop P (n + 1) ll =
      if P.antipodal then .error .ambiguous
      else .ok (if P.azis then VOut.dist3 0 0 0 else VOut.dist 0) := by
  simp only [vincentyInverseLoop]
  rw [if_pos hss]

/-- Value of `radians 180`: π. -/
lemma radiansQ_180 : radiansQ 180 = π := by
  rw [radiansQ]
  push_cast
  ring

/-- Value of `radians (-180)`: -π. -/
lemma radiansQ_neg180 : radiansQ (-180) = -π := by
  rw [radiansQ]
  push_cast
  ring

/-- Value of `radians 0`: zero. -/
lemma radiansQ_zero : radiansQ 0 = 0 := by
  rw [radiansQ]
  push_cast
  ring

/-- Antisymmetry of `_r3`: negating the latitude keeps the reduced cosine
and negates the reduced sine. -/
lemma r3_neg (a : ℚ) (f : ℝ) :
    (r3 (-a) f).1 = (r3 a f).1 ∧ (r3 (-a) f).2.1 = -(r3 a f).2.1 := by
  have hrad : radiansQ (-a) = -(radiansQ a) := by
    rw [radiansQ, radiansQ]
    push_cast
    ring
  have ht : (1 - f) * Real.tan (radiansQ (-a)) =
      -((1 - f) * Real.tan (radiansQ a)) := by
    rw [hrad, Real.tan_neg]
    ring
  constructor
  · show 1 / Real.sqrt (1 + ((1 - f) * Real.tan (radiansQ (-a))) ^ 2) = _
    rw [ht, neg_sq]
    rfl
  · show (1 - f) * Real.tan (radiansQ (-a)) *
      (1 / Real.sqrt (1 + ((1 - f) * Real.tan (radiansQ (-a))) ^ 2)) = _
    rw [ht, neg_sq]
    show _ = -((1 - f) * Real.tan (radiansQ a) *
      (1 / Real.sqrt (1 + ((1 - f) * Real.tan (radiansQ a)) ^ 2)))
    ring

/-- The embedded machine epsilon is positive as a real number. -/
lemma eps_cast_pos : (0 : ℝ) < (EPS : ℝ) := by
  rw [EPS]
  push_cast
  positivity

/-- C4: Vincenty's inverse solver raises `VincentyError` "ambiguous"
(not a numeric distance) for exactly antipodal point pairs
(`lat2 = -lat1`, longitudes 180° apart) and returns zero distance (zero
forward and reverse bearings as well when azimuths are requested) for
exactly coincident points; both behaviors are triggered by the
auxiliary-sphere sine `ss` falling below `EPS` in the first iteration. -/
theorem vincentyInverse_antipodal_coincident (E : Ellipsoid)
    (lat1 lon1 lat2 lon2 : ℚ) (azis : Bool) :
    (|lat1| ≤ 90 → lat2 = -lat1 → |lon2 - lon1| = 180 →
      vincentyInverse E lat1 lon1 lat2 lon2 azis = .error .ambiguous) ∧
    (lat2 = lat1 → lon2 = lon1 →
      vincentyInverse E lat1 lon1 lat2 lon2 azis =
        .ok (if azis then VOut.dist3 0 0 0 else VOut.dist 0)) := by
  constructor
  · intro _ h2 h3
    subst h2
    have hanti : isantipode lat1 lon1 (-lat1) lon2 LatLon.epsilon := by
      constructor
      · have hz : lat1 + -lat1 = 0 := by ring
        rw [hz, abs_zero, LatLon.epsilon]
        norm_num
      · have habs : |lon1 - lon2| = 180 := by rw [abs_sub_comm]; exact h3
        rw [habs, pymod]
        have hfl : ⌊(180 : ℚ) / 360⌋ = 0 := by
          rw [Int.floor_eq_zero_iff]
          constructor <;> norm_num
        rw [hfl, LatLon.epsilon]
        norm_num
    have hsc : Real.sin (radiansQ (lon2 - lon1)) = 0 ∧
        Real.cos (radiansQ (lon2 - lon1)) = -1 := by
      rcases (abs_eq (by norm_num : (0 : ℚ) ≤ 180)).mp h3 with hd | hd <;> rw [hd]
      · rw [radiansQ_180]
        exact ⟨Real.sin_pi, Real.cos_pi⟩
      · rw [radiansQ_neg180]
        constructor
        · rw [Real.sin_neg, Real.sin_pi, neg_zero]
        · rw [Real.cos_neg, Real.cos_pi]
    have hss : Real.sqrt
        (((invParams E lat1 lon1 (-lat1) lon2 azis).c2 *
            Real.sin (radiansQ (lon2 - lon1))) ^ 2 +
          ((invParams E lat1 lon1 (-lat1) lon2 azis).c1 *
              (invParams E lat1 lon1 (-lat1) lon2 azis).s2 -
            (invParams E lat1 lon1 (-lat1) lon2 azis).s1 *
              (invParams E lat1 lon1 (-lat1) lon2 azis).c2 *
              Real.cos (radiansQ (lon2 - lon1))) ^ 2) < (EPS : ℝ) := by
      have hX : ((invParams E lat1 lon1 (-lat1) lon2 azis).c2 *
            Real.sin (radiansQ (lon2 - lon1))) ^ 2 +
          ((invParams E lat1 lon1 (-lat1) lon2 azis).c1 *
              (invParams E lat1 lon1 (-lat1) lon2 azis).s2 -
            (invParams E lat1 lon1 (-lat1) lon2 azis).s1 *
              (invParams E lat1 lon1 (-lat1) lon2 azis).c2 *
              Real.cos (radiansQ (lon2 - lon1))) ^ 2 = 0 := by
        rw [invParams_c1, invParams_c2, invParams_s1, invParams_s2,
          hsc.1, hsc.2, (r3_neg lat1 (E.f : ℝ)).1, (r3_neg lat1 (E.f : ℝ)).2]
        ring
      rw [hX, Real.sqrt_zero]
      exact eps_cast_pos
    simp only [vincentyInverse]
    rw [show LatLon.iterations = 99 + 1 from rfl,
      vincentyInverseLoop_early _ 99 _ hss, invParams_antipodal, if_pos hanti]
  · intro h2 h3
    rw [h2, h3]
    have hnanti : ¬ isantipode lat1 lon1 lat1 lon1 LatLon.epsilon := by
      rintro ⟨-, hc⟩
      rw [sub_self, abs_zero, pymod, zero_div, Int.floor_zero,
        LatLon.epsilon] at hc
      norm_num at hc
    have hsc : Real.sin (radiansQ (lon1 - lon1)) = 0 ∧
        Real.cos (radiansQ (lon1 - lon1)) = 1 := by
      rw [sub_self, radiansQ_zero]
      exact ⟨Real.sin_zero, Real.cos_zero⟩
    have hss : Real.sqrt
        (((invParams E lat1 lon1 lat1 lon1 azis).c2 *
            Real.sin (radiansQ (lon1 - lon1))) ^ 2 +
          ((invParams E lat1 lon1 lat1 lon1 azis).c1 *
              (invParams E lat1 lon1 lat1 lon1 azis).s2 -
            (invParams E lat1 lon1 lat1 lon1 azis).s1 *
              (invParams E lat1 lon1 lat1 lon1 azis).c2 *
              Real.cos (radiansQ (lon1 - lon1))) ^ 2) < (EPS : ℝ) := by
      have hX : ((invParams E lat1 lon1 lat1 lon1 azis).c2 *
            Real.sin (radiansQ (lon1 - lon1))) ^ 2 +
          ((invParams E lat1 lon1 lat1 lon1 azis).c1 *
              (invParams E lat1 lon1 lat1 lon1 azis).s2 -
            (invParams E lat1 lon1 lat1 lon1 azis).s1 *
              (invParams E lat1 lon1 lat1 lon1 azis).c2 *
              Real.cos (radiansQ (lon1 - lon1))) ^ 2 = 0 := by
        rw [invParams_c1, invParams_c2, invParams_s1, invParams_s2,
          hsc.1, hsc.2]
        ring
      rw [hX, Real.sqrt_zero]
      exact eps_cast_pos
    simp only [vincentyInverse]
    rw [show LatLon.iterations = 99 + 1 from rfl,
      vincentyInverseLoop_early _ 99 _ hss, invParams_antipodal,
      if_neg hnanti, invParams_azis]

/-- Witness for `vincentyInverse_antipodal_coincident`: the WGS84 pair
(30°, 10°) / (-30°, -170°) is exactly antipodal and raises "ambiguous";
the coincident pair (30°, 10°) / (30°, 10°) returns zero distance and
bearings. -/
theorem vincentyInverse_antipodal_coincident_witness :
    vincentyInverse WGS84 30 10 (-30) (-170) true = .error .ambiguous ∧
    vincentyInverse WGS84 30 10 30 10 true = .ok (VOut.dist3 0 0 0) := by
  constructor
  · exact (vincentyInverse_antipodal_coincident WGS84 30 10 (-30) (-170)
      true).1 (by norm_num) (by norm_num) (by norm_num)
  · have h := (vincentyInverse_antipodal_coincident WGS84 30 10 30 10
      true).2 rfl rfl
    simpa using h

/-- Modelled from the spec: utily.py (not in src) `degrees90`: radians to
degrees wrapped into [-90, 90). -/
noncomputable def degrees90R (r : ℝ) : ℝ :=
  degreesR r - 180 * ⌊(degreesR r + 90) / 180⌋

/-- Modelled from the spec: utily.py (not in src) `degrees180`: radians
to degrees wrapped into [-180, 180). -/
noncomputable def degrees180R (r : ℝ) : ℝ :=
  degreesR r - 360 * ⌊(degreesR r + 180) / 360⌋

/-- From `LatLon._direct`: `sa = c1 * si`, the sine of the azimuth of the
geodesic at the equator. -/
noncomputable def directSa (E : Ellipsoid) (lat1 bearing : ℚ) : ℝ :=
  (r3 lat1 (E.f : ℝ)).1 * Real.sin (radiansQ bearing)

/-- From `LatLon._direct`: `s12 = atan2(t1, ci) * 2`. -/
noncomputable def directS12 (E : Ellipsoid) (lat1 bearing : ℚ) : ℝ :=
  atan2 (r3 lat1 (E.f : ℝ)).2.2 (Real.cos (radiansQ bearing)) * 2

/-- From `LatLon._direct`: `c2a = 1 - sa**2`, zeroed below `EPS`. -/
noncomputable def directC2a (E : Ellipsoid) (lat1 bearing : ℚ) : ℝ :=
  if 1 - directSa E lat1 bearing ^ 2 < (EPS : ℝ) then 0
  else 1 - directSa E lat1 bearing ^ 2

/-- From `LatLon._direct`: the Vincenty `A` coefficient, 1 when `c2a < EPS`,
else `_p2(c2a * E.e22)`'s first component. -/
noncomputable def directA (E : Ellipsoid) (lat1 bearing : ℚ) : ℝ :=
  if 1 - directSa E lat1 bearing ^ 2 < (EPS : ℝ) then 1
  else p2A ((1 - directSa E lat1 bearing ^ 2) * (E.e22 : ℝ))

/-- From `LatLon._direct`: the Vincenty `B` coefficient, 0 when `c2a < EPS`,
else `_p2(c2a * E.e22)`'s second component. -/
noncomputable def directB (E : Ellipsoid) (lat1 bearing : ℚ) : ℝ :=
  if 1 - directSa E lat1 bearing ^ 2 < (EPS : ℝ) then 0
  else p2B ((1 - directSa E lat1 bearing ^ 2) * (E.e22 : ℝ))

/-- From `LatLon._direct`: `d = distance / (E.b * A)`, the (fixed) reduced
distance and the loop's initial arc length `s`. -/
noncomputable def directD (E : Ellipsoid) (lat1 bearing dist : ℚ) : ℝ :=
  (dist : ℝ) / ((E.b : ℝ) * directA E lat1 bearing)

/-- One update of the arc-length fixed point of `LatLon._direct`:
`s ↦ d + _ds(B, cos s, sin s, cos(s12 + s))`. -/
noncomputable def directStep (E : Ellipsoid) (lat1 bearing dist : ℚ)
    (s : ℝ) : ℝ :=
  directD E lat1 bearing dist +
    dsV (directB E lat1 bearing) (Real.cos s) (Real.sin s)
      (Real.cos (directS12 E lat1 bearing + s))

/-- The `for` loop of `LatLon._direct` (ellipsoidalVincenty.py lines
483-490) with the iteration budget as fuel: update `s` by `directStep`,
stop once `|s' - s| < eps` (returning the final and previous arc length,
whose sine/cosine the code retains for the destination), and raise
`VincentyError("no convergence, ...")` when the fuel runs out. -/
noncomputable def vincentyDirectLoop (E : Ellipsoid) (lat1 bearing dist : ℚ)
    (eps : ℝ) : ℕ → ℝ → Except VincentyErr (ℝ × ℝ)
  | 0, _ => .error .noConvergence
  | n + 1, s =>
    let s' := directStep E lat1 bearing dist s
    if |s' - s| < eps then .ok (s', s)
    else vincentyDirectLoop E lat1 bearing dist eps n s'

/-- Method `LatLon._direct(distance, bearing, llr=True)` of
ellipsoidalVincenty.py: iterate the arc length with the default epsilon
1e-12 and iteration limit 100, then recover the destination latitude,
longitude and the final (reverse) bearing in degrees. -/
noncomputable def vincentyDirect (E : Ellipsoid) (lat1 lon1 bearing dist : ℚ) :
    Except VincentyErr (ℝ × ℝ × ℝ) :=
  match vincentyDirectLoop E lat1 bearing dist ((LatLon.epsilon : ℚ) : ℝ)
      LatLon.iterations (directD E lat1 bearing dist) with
  | .error e => .error e
  | .ok (s, sOld) =>
    let f := (E.f : ℝ)
    let c1 := (r3 lat1 f).1
    let s1 := (r3 lat1 f).2.1
    let si := Real.sin (radiansQ bearing)
    let ci := Real.cos (radiansQ bearing)
    let ss := Real.sin sOld
    let cs := Real.cos sOld
    let c2sm := Real.cos (directS12 E lat1 bearing + sOld)
    let sa := directSa E lat1 bearing
    let t := s1 * ss - c1 * cs * ci
    let r := degrees360R (atan2 sa (-t))
    let a := degrees90R (atan2 (s1 * cs + c1 * ss * ci)
      ((1 - f) * Real.sqrt (sa ^ 2 + t ^ 2)))
    let b := degrees180R (atan2 (ss * si) (c1 * cs - s1 * ss * ci) -
      dlV f (directC2a E lat1 bearing) sa s cs ss c2sm + radiansQ lon1)
    .ok (a, b, r)

/-- The direct loop raises "no convergence" exactly when no iterate
within the fuel budget moved by less than `eps`. -/
lemma vincentyDirectLoop_error_iff (E : Ellipsoid) (lat1 bearing dist : ℚ)
    (eps : ℝ) (n : ℕ) (s : ℝ) :
    vincentyDirectLoop E lat1 bearing dist eps n s = .error .noConvergence ↔
    ∀ k < n, eps ≤ |directStep E lat1 bearing dist
        ((directStep E lat1 bearing dist)^[k] s) -
      (directStep E lat1 bearing dist)^[k] s| := by
  induction n generalizing s with
  | zero => simp [vincentyDirectLoop]
  | succ n ih =>
    simp only [vincentyDirectLoop]
    by_cases h : |directStep E lat1 bearing dist s - s| < eps
    · rw [if_pos h]
      apply iff_of_false (fun hc => Except.noConfusion hc)
      intro hall
      have h0 := hall 0 (Nat.succ_pos n)
      rw [Function.iterate_zero_apply] at h0
      exact absurd h (not_lt.mpr h0)
    · rw [if_neg h, ih]
      constructor
      · intro hall k hk
        match k with
        | 0 =>
          rw [Function.iterate_zero_apply]
          exact not_lt.mp h
        | m + 1 =>
          rw [Function.iterate_succ_apply]
          exact hall m (by omega)
      · intro hall k hk
        have hx := hall (k + 1) (by omega)
        rw [Function.iterate_succ_apply] at hx
        exact hx

/-- A state of the inverse λ iteration at which the loop stops without
raising "no convergence": either the `ss < EPS` early return (ambiguous
or coincident) or the `|ll' - ll| < epsilon` convergence break. -/
noncomputable def invStops (P : InvP) (ll : ℝ) : Prop :=
  Real.sqrt ((P.c2 * Real.sin ll) ^ 2 +
    (P.c1 * P.s2 - P.s1 * P.c2 * Real.cos ll) ^ 2) < (EPS : ℝ) ∨
  |invStep P ll - ll| < P.epsilon

/-- The inverse loop raises "no convergence" exactly when no iterate
within the fuel budget is a stopping state. -/
lemma vincentyInverseLoop_error_iff (P : InvP) (n : ℕ) (ll : ℝ) :
    vincentyInverseLoop P n ll = .error .noConvergence ↔
    ∀ k < n, ¬ invStops P ((invStep P)^[k] ll) := by
  induction n generalizing ll with
  | zero => simp [vincentyInverseLoop]
  | succ n ih =>
    simp only [vincentyInverseLoop]
    by_cases h1 : Real.sqrt ((P.c2 * Real.sin ll) ^ 2 +
        (P.c1 * P.s2 - P.s1 * P.c2 * Real.cos ll) ^ 2) < (EPS : ℝ)
    · rw [if_pos h1]
      apply iff_of_false
      · by_cases ha : P.antipodal
        · rw [if_pos ha]
          intro hc
          exact VincentyErr.noConfusion (Except.error.inj hc)
        · rw [if_neg ha]
          exact fun hc => Except.noConfusion hc
      · intro hall
        exact hall 0 (Nat.succ_pos n)
          (by rw [Function.iterate_zero_apply]; exact Or.inl h1)
    · rw [if_neg h1]
      by_cases h2 : |invStep P ll - ll| < P.epsilon
      · rw [if_pos h2]
        apply iff_of_false (fun hc => Except.noConfusion hc)
        intro hall
        exact hall 0 (Nat.succ_pos n)
          (by rw [Function.iterate_zero_apply]; exact Or.inr h2)
      · rw [if_neg h2, ih]
        constructor
        · intro hall k hk
          match k with
          | 0 =>
            rw [Function.iterate_zero_apply]
            rw [invStops, not_or]
            exact ⟨h1, h2⟩
          | m + 1 =>
            rw [Function.iterate_succ_apply]
            exact hall m (by omega)
        · intro hall k hk
          have hx := hall (k + 1) (by omega)
          rw [Function.iterate_succ_apply] at hx
          exact hx

/-- The direct loop's only error is "no convergence". -/
lemma vincentyDirectLoop_not_ambiguous (E : Ellipsoid) (lat1 bearing dist : ℚ)
    (eps : ℝ) (n : ℕ) (s : ℝ) :
    vincentyDirectLoop E lat1 bearing dist eps n s ≠ .error .ambiguous := by
  induction n generalizing s with
  | zero =>
    intro hc
    exact VincentyErr.noConfusion (Except.error.inj hc)
  | succ n ih =>
    simp only [vincentyDirectLoop]
    by_cases h : |directStep E lat1 bearing dist s - s| < eps
    · rw [if_pos h]
      exact fun hc => Except.noConfusion hc
    · rw [if_neg h]
      exact ih _

/-- C8: Vincenty's direct solver iterates the arc-length fixed point and
raises `VincentyError` "no convergence" exactly when the default
iteration limit (100) is exhausted without any step changing by less
than the default epsilon (1e-12); the only error it can raise is
"no convergence" (no internal retry, no "ambiguous"), and the inverse
solver's loop likewise raises "no convergence" exactly when its
iteration budget runs out without reaching a stopping state. -/
theorem vincentyDirect_noConvergence (E : Ellipsoid)
    (lat1 lon1 bearing dist : ℚ) :
    (vincentyDirect E lat1 lon1 bearing dist = .error .noConvergence ↔
      ∀ k < LatLon.iterations, ((LatLon.epsilon : ℚ) : ℝ) ≤
        |directStep E lat1 bearing dist
            ((directStep E lat1 bearing dist)^[k] (directD E lat1 bearing dist)) -
          (directStep E lat1 bearing dist)^[k] (directD E lat1 bearing dist)|) ∧
    vincentyDirect E lat1 lon1 bearing dist ≠ .error .ambiguous ∧
    (∀ (P : InvP) (n : ℕ) (ll : ℝ),
      vincentyInverseLoop P n ll = .error .noConvergence ↔
      ∀ k < n, ¬ invStops P ((invStep P)^[k] ll)) := by
  refine ⟨?_, ?_, vincentyInverseLoop_error_iff⟩
  · rw [← vincentyDirectLoop_error_iff E lat1 bearing dist
      ((LatLon.epsilon : ℚ) : ℝ) LatLon.iterations (directD E lat1 bearing dist)]
    rcases hl : vincentyDirectLoop E lat1 bearing dist
        ((LatLon.epsilon : ℚ) : ℝ) LatLon.iterations
        (directD E lat1 bearing dist) with e | p
    · rcases e with _ | _
      · apply iff_of_false
        · simp [vincentyDirect, hl]
        · intro hc
          exact VincentyErr.noConfusion (Except.error.inj hc.symm)
      · apply iff_of_true
        · simp [vincentyDirect, hl]
        · rfl
    · apply iff_of_false
      · simp [vincentyDirect, hl]
      · simp
  · intro hc
    rcases hl : vincentyDirectLoop E lat1 bearing dist
        ((LatLon.epsilon : ℚ) : ℝ) LatLon.iterations
        (directD E lat1 bearing dist) with e | p
    · have he : e = .ambiguous := by
        rw [vincentyDirect, hl] at hc
        simpa using hc
      rw [he] at hl
      exact vincentyDirectLoop_not_ambiguous E lat1 bearing dist _ _ _ hl
    · rw [vincentyDirect, hl] at hc
      simp at hc

/-- Witness for `vincentyDirect_noConvergence`: with zero distance the
very first step is a fixed point, so the solver does not raise
"no convergence" (the iterate-based criterion fails at k = 0). -/
theorem vincentyDirect_noConvergence_witness :
    vincentyDirect WGS84 0 0 90 0 ≠ .error .noConvergence := by
  intro h
  have hall := (vincentyDirect_noConvergence WGS84 0 0 90 0).1.mp h
  have h0 := hall 0 (by rw [LatLon.iterations]; norm_num)
  rw [Function.iterate_zero_apply] at h0
  have hd : directD WGS84 0 90 0 = 0 := by
    rw [directD]
    push_cast
    exact zero_div _
  have hstep : directStep WGS84 0 90 0 0 = 0 := by
    rw [directStep, hd, dsV, Real.sin_zero]
    ring
  rw [hd, hstep] at h0
  rw [LatLon.epsilon] at h0
  norm_num at h0

/-- A geocentric-to-geodetic result with real-valued geodetic fields, as
returned by the `Ecef` reverse conversions. -/
structure Ecef9R where
  x : ℝ
  y : ℝ
  z : ℝ
  lat : ℝ
  lon : ℝ
  height : ℝ
  C : ℕ

/-- ecef.py `EcefVeness.reverse`: Bowring's closed form (eqn 17-18) with
the degenerate branches `C = 2` (near the equatorial plane, `p > EPS`)
and `C = 3` (polar, `lat = ±90`, `lon` arbitrarily zero).  This backs
the analysis of the pole-handling claim: the polar branch never divides
and fixes `lon = 0`.  (`copysign(90, z)` is embedded ignoring the
negative-zero case, which exact arithmetic does not have.) -/
noncomputable def EcefVeness.reverse (E : Ellipsoid) (x y z : ℝ) : Ecef9R :=
  let p := Real.sqrt (x ^ 2 + y ^ 2)
  let r := Real.sqrt (p ^ 2 + z ^ 2)
  if min p r > (EPS : ℝ) then
    let t := ((E.b : ℝ) * z) / ((E.a : ℝ) * p) *
      (1 + (E.e22 : ℝ) * (E.b : ℝ) / r)
    let c := 1 / Real.sqrt (1 + t ^ 2)
    let s := t * c
    let a := atan2 (z + (E.e22 : ℝ) * (E.b : ℝ) * s ^ 3)
      (p - (E.e2 : ℝ) * (E.a : ℝ) * c ^ 3)
    let sa := Real.sin a
    let ca := Real.cos a
    let h := p * ca + z * sa - (E.a : ℝ) * Real.sqrt (1 - (E.e2 : ℝ) * sa ^ 2)
    ⟨x, y, z, degrees90R a, degrees180R (atan2 y x), h, 1⟩
  else if p > (EPS : ℝ) then
    ⟨x, y, z, 0, degrees180R (atan2 y x), p - (E.a : ℝ), 2⟩
  else
    ⟨x, y, z, if z < 0 then -90 else 90, 0, |z| - (E.b : ℝ), 3⟩

/-- On the rotation axis (`x = y = 0`), `EcefVeness.reverse` takes the
polar branch: case code 3, `lon = 0` by convention, `lat = ±90` and
`height = |z| - b`, with no division performed.  (Supports the analysis
of the pole-handling claim; the corresponding fact for `EcefYou.reverse`
is a floating-point artifact and is not statable here.) -/
theorem ecefVeness_reverse_pole (E : Ellipsoid) (z : ℝ) :
    EcefVeness.reverse E 0 0 z =
      ⟨0, 0, z, if z < 0 then -90 else 90, 0, |z| - (E.b : ℝ), 3⟩ := by
  have hp : Real.sqrt ((0 : ℝ) ^ 2 + 0 ^ 2) = 0 := by
    norm_num
  have h1 : ¬ min (Real.sqrt ((0 : ℝ) ^ 2 + 0 ^ 2))
      (Real.sqrt (Real.sqrt ((0 : ℝ) ^ 2 + 0 ^ 2) ^ 2 + z ^ 2)) > (EPS : ℝ) := by
    rw [hp]
    rw [not_lt]
    calc min (0 : ℝ) (Real.sqrt (0 ^ 2 + z ^ 2)) ≤ 0 := min_le_left _ _
    _ ≤ (EPS : ℝ) := le_of_lt eps_cast_pos
  have h2 : ¬ Real.sqrt ((0 : ℝ) ^ 2 + 0 ^ 2) > (EPS : ℝ) := by
    rw [hp, not_lt]
    exact le_of_lt eps_cast_pos
  rw [EcefVeness.reverse]
  rw [if_neg h1, if_neg h2]
